import Mathlib

/-!
Verification of the media-stream extraction pipeline.

Shallow embedding of the two instantiations of the pipeline found in the
repository:

* the interactive, one-stream-at-a-time mode — the `extract-stream` IPC
  handler of the Electron main process (builds an `ffmpeg` command string,
  runs it, and for subtitle streams post-processes the produced `.vtt` file);
* the batch mode — the `/upload` handler of the Express server (probes the
  uploaded file with `ffprobe`, processes the video stream, then extracts all
  audio and subtitle streams via `fluent-ffmpeg` builders and assembles a
  manifest).

JavaScript strings are modelled as Lean `String`s (file contents, which the
subtitle normalizer traverses character by character, as `List Char`);
JavaScript template-literal interpolation of numbers uses the decimal
rendering `natToDecimal` defined below; promise rejection is modelled with
`Except`.
-/

/-- Decimal digits, most significant first, computed with explicit fuel so
that the definition is structurally recursive (the fuel strictly exceeds the
number being rendered at every call). -/
def decDigitsAux : Nat → Nat → List Char
  | 0, _ => []
  | fuel + 1, n =>
    if n < 10 then [Nat.digitChar n]
    else decDigitsAux fuel (n / 10) ++ [Nat.digitChar (n % 10)]

/-- Decimal digits of a natural number, most significant first.  Models the
JavaScript number-to-string conversion used by template literals such as
`${Date.now()}` and `${stream.index}` (all interpolated values in the source
are non-negative integers). -/
def decDigits (n : Nat) : List Char :=
  decDigitsAux (n + 1) n

/-- Decimal rendering of a natural number as a string. -/
def natToDecimal (n : Nat) : String :=
  ⟨decDigits n⟩
/-!
Subtitle Normalizer.

Embeds the subtitle cleanup of the `extract-stream` handler:

```
const cleanedContent = vttContent.split('\n').map(line => {
    if (line.includes('-->') || /^\d+$/.test(line.trim()) ||
        line.trim() === 'WEBVTT' || line.trim() === '') {
        return line;
    }
    return line.replace(/"/g, '');
}).join('\n');
```

File contents are `List Char`; `splitLines`/`joinLines` model
`String.prototype.split('\n')` and `Array.prototype.join('\n')`.
-/

/-- Models `s.split('\n')` of JavaScript: splitting the empty string yields
one empty field, and every newline separates two fields. -/
def splitLines : List Char → List (List Char)
  | [] => [[]]
  | c :: cs =>
    if c = '\n' then [] :: splitLines cs
    else
      match splitLines cs with
      | [] => [[c]]
      | l :: ls => (c :: l) :: ls

/-- Models `arr.join('\n')` of JavaScript. -/
def joinLines : List (List Char) → List Char
  | [] => []
  | [l] => l
  | l :: ls => l ++ '\n' :: joinLines ls

/-- The WhiteSpace and LineTerminator code points removed by
`String.prototype.trim`. -/
def isJsWhitespace (c : Char) : Bool :=
  c = ' ' || c = '\t' || c = '\n' || c = '\r' ||
  c = '\x0b' || c = '\x0c' || c = ' ' || c = ' ' ||
  (' ' ≤ c && c ≤ ' ') ||
  c = ' ' || c = ' ' || c = ' ' || c = ' ' ||
  c = '　' || c = '﻿'

/-- Models `line.trim()`: strip leading and trailing whitespace. -/
def trimChars (l : List Char) : List Char :=
  ((l.dropWhile isJsWhitespace).reverse.dropWhile isJsWhitespace).reverse

/-- Models `line.includes('-->')`. -/
def containsArrow : List Char → Bool
  | '-' :: '-' :: '>' :: _ => true
  | _ :: rest => containsArrow rest
  | [] => false

/-- Models the regular-expression test of the cleanup (non-empty, all
decimal digits). -/
def isDigitsOnly (l : List Char) : Bool :=
  !l.isEmpty && l.all (fun c => '0' ≤ c && c ≤ '9')

/-- The structural-line test of the cleanup: cue-timing line, pure cue-index
line, `WEBVTT` header, or blank line. -/
def isStructural (l : List Char) : Bool :=
  containsArrow l || isDigitsOnly (trimChars l) ||
  trimChars l = ['W', 'E', 'B', 'V', 'T', 'T'] || trimChars l = []

/-- Per-line action of the cleanup: structural lines pass through, all other
lines have every double-quote removed (`line.replace(/"/g, '')`). -/
def cleanLine (l : List Char) : List Char :=
  if isStructural l then l else l.filter (fun c => c ≠ '"')

/-- The whole cleanup pass over a file's contents: split on newlines, map the
per-line action, re-join with newlines. -/
def cleanContent (s : List Char) : List Char :=
  joinLines ((splitLines s).map cleanLine)
/-!
Data model.

A probed stream as consumed by both handlers: the `index`, `codec_type`,
`codec_name` and optional `tags.title` / `tags.language` fields of one entry
of ffprobe's `streams` array.
-/

/-- Optional metadata tags of a probed stream. -/
structure Tags where
  title : Option String
  language : Option String
deriving DecidableEq

/-- One entry of the probed stream inventory. -/
structure StreamDesc where
  index : Nat
  codec_type : String
  codec_name : String
  tags : Option Tags
deriving DecidableEq

/-- Reads `stream.tags?.title` with JavaScript optional chaining. -/
def titleTag (s : StreamDesc) : Option String :=
  s.tags.bind Tags.title

/-- Reads `stream.tags?.language` with JavaScript optional chaining. -/
def langTag (s : StreamDesc) : Option String :=
  s.tags.bind Tags.language

/-!
Interactive mode: the `extract-stream` IPC handler.
-/

/-- The per-invocation identifier of the interactive handler, built from the
fixed marker and the observed clock value: the `mx-player-` prefix followed
by the decimal rendering of `Date.now()`. -/
def uniqueId (now : Nat) : String :=
  "mx-player-" ++ natToDecimal now

/-- Output path of an interactive audio extraction. -/
def audioOutputPath (tempDir : String) (now index : Nat) : String :=
  tempDir ++ "/" ++ uniqueId now ++ "_audio_" ++ natToDecimal index ++ ".aac"

/-- Output path of an interactive subtitle extraction. -/
def subtitleOutputPath (tempDir : String) (now index : Nat) : String :=
  tempDir ++ "/" ++ uniqueId now ++ "_sub_" ++ natToDecimal index ++ ".vtt"

/-- The ffmpeg command string built for an audio stream in the interactive
handler: stream copy when the probed codec is already `aac`, transcode to
`aac` otherwise. -/
def interactiveAudioCommand (filePath : String) (index : Nat)
    (codecName outputPath : String) : String :=
  if codecName = "aac" then
    "ffmpeg -y -i \"" ++ filePath ++ "\" -map 0:" ++ natToDecimal index ++
      " -c:a copy \"" ++ outputPath ++ "\""
  else
    "ffmpeg -y -i \"" ++ filePath ++ "\" -map 0:" ++ natToDecimal index ++
      " -c:a aac \"" ++ outputPath ++ "\""

/-- The ffmpeg command string built for a subtitle stream in the interactive
handler: always a transcode to `webvtt`. -/
def interactiveSubtitleCommand (filePath : String) (index : Nat)
    (outputPath : String) : String :=
  "ffmpeg -y -i \"" ++ filePath ++ "\" -map 0:" ++ natToDecimal index ++
    " -c:s webvtt \"" ++ outputPath ++ "\""

deriving instance DecidableEq for Except

/-- Observable outcome of one `extract-stream` invocation: the commands
handed to `exec` (in order), the promise's resolution or rejection, and, for
subtitle extractions, the content of the output file after the handler
finished with it. -/
structure ExtractOutcome where
  spawned : List String
  result : Except String String
  finalContent : Option (List Char)
deriving DecidableEq

/-- The `extract-stream` IPC handler.  Ambient effects are passed in
explicitly: `now` is the observed `Date.now()` value, `execError` is `some
stderr` when the spawned ffmpeg run fails (the callback's `error` branch),
`fileContent` is what ffmpeg wrote to the output file, and `ioOk` tells
whether the read/rewrite inside the `try` block succeeds (its `catch` only
logs, leaving the file as produced). -/
def extractStreamHandler (tempDir filePath : String) (stream : StreamDesc)
    (now : Nat) (execError : Option String) (fileContent : List Char)
    (ioOk : Bool) : ExtractOutcome :=
  if stream.codec_type = "audio" then
    let outputPath := audioOutputPath tempDir now stream.index
    let command :=
      interactiveAudioCommand filePath stream.index stream.codec_name outputPath
    match execError with
    | some stderr =>
      { spawned := [command],
        result := .error ("FFmpeg failed to extract stream: " ++ stderr),
        finalContent := none }
    | none =>
      { spawned := [command], result := .ok outputPath, finalContent := none }
  else if stream.codec_type = "subtitle" then
    let outputPath := subtitleOutputPath tempDir now stream.index
    let command := interactiveSubtitleCommand filePath stream.index outputPath
    match execError with
    | some stderr =>
      { spawned := [command],
        result := .error ("FFmpeg failed to extract stream: " ++ stderr),
        finalContent := none }
    | none =>
      { spawned := [command], result := .ok outputPath,
        finalContent := some (if ioOk then cleanContent fileContent else fileContent) }
  else
    { spawned := [], result := .error "Unsupported stream type for extraction.",
      finalContent := none }

/-- One extraction session of the interactive handler: the handler invocation
(identified by an arbitrary serial number) together with the `Date.now()`
value it observed.  The handler itself uses only the observed clock value. -/
structure ExtractionSession where
  invocation : Nat
  now : Nat
deriving DecidableEq

/-- The audio output path a given session allocates for a stream index. -/
def sessionAudioOutputPath (tempDir : String) (s : ExtractionSession)
    (index : Nat) : String :=
  audioOutputPath tempDir s.now index

/-- The subtitle output path a given session allocates for a stream index. -/
def sessionSubtitleOutputPath (tempDir : String) (s : ExtractionSession)
    (index : Nat) : String :=
  subtitleOutputPath tempDir s.now index

/-!
Batch mode: the `/upload` handler of the Express server.

The fluent-ffmpeg invocations are modelled by the configuration each builder
chain accumulates before `.run()`.
-/

/-- Configuration accumulated by a fluent-ffmpeg builder chain. -/
structure FluentCommand where
  output : String
  noAudio : Bool
  noVideo : Bool
  videoCodec : Option String
  audioCodec : Option String
  outputOptions : List String
deriving DecidableEq

/-- The video-processing command of the `/upload` handler: output
`video.mp4`, `.noAudio()`, `.videoCodec('copy')`, and — when a video stream
was found and its codec is `h264` — an extra `-c:v libx264` output option
appended before `.run()`. -/
def buildBatchVideoCommand (processedDir : String)
    (videoStream : Option StreamDesc) : FluentCommand :=
  let base : FluentCommand :=
    { output := processedDir ++ "/video.mp4", noAudio := true, noVideo := false,
      videoCodec := some "copy", audioCodec := none, outputOptions := [] }
  match videoStream with
  | some vs =>
    if vs.codec_name = "h264" then
      { base with outputOptions := base.outputOptions ++ ["-c:v libx264"] }
    else base
  | none => base

/-- The audio-extraction command the `/upload` handler builds for the `i`-th
audio stream: output `audio_i.aac`, `.noVideo()`, `.audioCodec('aac')`, and a
`-map` option selecting the stream's global index. -/
def buildBatchAudioCommand (processedDir : String) (i : Nat)
    (stream : StreamDesc) : FluentCommand :=
  { output := processedDir ++ "/audio_" ++ natToDecimal i ++ ".aac",
    noAudio := false, noVideo := true, videoCodec := none,
    audioCodec := some "aac",
    outputOptions := ["-map 0:" ++ natToDecimal stream.index] }

/-- The subtitle-extraction command the `/upload` handler builds for the
`i`-th subtitle stream: output `sub_i.vtt` and a `-map` option selecting the
stream's global index; no codec call is made. -/
def buildBatchSubtitleCommand (processedDir : String) (i : Nat)
    (stream : StreamDesc) : FluentCommand :=
  { output := processedDir ++ "/sub_" ++ natToDecimal i ++ ".vtt",
    noAudio := false, noVideo := false, videoCodec := none, audioCodec := none,
    outputOptions := ["-map 0:" ++ natToDecimal stream.index] }

/-- JavaScript `x || y` on an optionally-present string: an absent value and
the empty string are falsy and select the fallback. -/
def orDefault (o : Option String) (d : String) : String :=
  match o with
  | some s => if s = "" then d else s
  | none => d

/-- One manifest entry of the batch response. -/
structure MediaTrack where
  url : String
  label : String
deriving DecidableEq

/-- Label of the `i`-th audio manifest entry (0-based position within the
audio partition): title, else language, else the 1-indexed positional
fallback. -/
def audioTrackLabel (stream : StreamDesc) (i : Nat) : String :=
  orDefault (titleTag stream)
    (orDefault (langTag stream) ("Audio " ++ natToDecimal (i + 1)))

/-- The manifest entry built for the `i`-th audio stream. -/
def audioTrack (baseName : String) (i : Nat) (stream : StreamDesc) : MediaTrack :=
  { url := "/processed/" ++ baseName ++ "/audio_" ++ natToDecimal i ++ ".aac",
    label := audioTrackLabel stream i }

/-- Label of the `i`-th subtitle manifest entry. -/
def subtitleTrackLabel (stream : StreamDesc) (i : Nat) : String :=
  orDefault (titleTag stream)
    (orDefault (langTag stream) ("Subtitle " ++ natToDecimal (i + 1)))

/-- The manifest entry built for the `i`-th subtitle stream. -/
def subtitleTrack (baseName : String) (i : Nat) (stream : StreamDesc) : MediaTrack :=
  { url := "/processed/" ++ baseName ++ "/sub_" ++ natToDecimal i ++ ".vtt",
    label := subtitleTrackLabel stream i }

/-- The successful JSON payload of the `/upload` handler. -/
structure UploadResponse where
  videoUrl : String
  audioTracks : List MediaTrack
  subtitleTracks : List MediaTrack
  filename : String
deriving DecidableEq

/-- Models `arr.map((x, i) => f(i, x))` starting at index `n`. -/
def mapIdxFrom (f : Nat → α → β) : Nat → List α → List β
  | _, [] => []
  | n, a :: as => f n a :: mapIdxFrom f (n + 1) as

/-- Models `Promise.all`: succeeds with all values when every entry
succeeds, otherwise fails with a rejection among the entries. -/
def promiseAll : List (Except String α) → Except String (List α)
  | [] => .ok []
  | .error e :: _ => .error e
  | .ok a :: xs =>
    match promiseAll xs with
    | .error e => .error e
    | .ok as => .ok (a :: as)

/-- The `/upload` handler after a successful probe.  `streams` is the probed
inventory; the per-extraction subprocess outcomes are passed in explicitly
(`videoOutcome` for the video step, `audioOutcome i s` / `subtitleOutcome i
s` for the `i`-th stream of each partition).  The handler throws when the
probe reports no streams, processes the video stream, fans out over the
audio partition and then the subtitle partition with `Promise.all`, and
answers with the manifest only when every step succeeded; any failure
reaches the `catch` block, which answers with an error and no manifest. -/
def uploadHandler (filename baseName : String) (streams : List StreamDesc)
    (videoOutcome : Except String Unit)
    (audioOutcome : Nat → StreamDesc → Except String Unit)
    (subtitleOutcome : Nat → StreamDesc → Except String Unit) :
    Except String UploadResponse :=
  if streams.isEmpty then .error "No streams found in the video file"
  else
    let audioStreams := streams.filter (fun s => s.codec_type == "audio")
    let subtitleStreams := streams.filter (fun s => s.codec_type == "subtitle")
    match videoOutcome with
    | .error e => .error e
    | .ok _ =>
      match promiseAll (mapIdxFrom
          (fun i s => (audioOutcome i s).map (fun _ => audioTrack baseName i s))
          0 audioStreams) with
      | .error e => .error e
      | .ok audioTracks =>
        match promiseAll (mapIdxFrom
            (fun i s => (subtitleOutcome i s).map (fun _ => subtitleTrack baseName i s))
            0 subtitleStreams) with
        | .error e => .error e
        | .ok subtitleTracks =>
          .ok { videoUrl := "/processed/" ++ baseName ++ "/video.mp4",
                audioTracks := audioTracks, subtitleTracks := subtitleTracks,
                filename := filename }

/-- Post-processing the `/upload` handler applies to an extracted
`sub_i.vtt` before serving it: none — the file is served exactly as ffmpeg
produced it (the cleanup pass exists only in the interactive
`extract-stream` handler). -/
def batchSubtitlePostProcess (raw : List Char) : List Char :=
  raw

/-!
Supporting lemmas.
-/

theorem decDigitsAux_fuel_irrel :
    ∀ (f₁ : Nat), ∀ {n : Nat}, n < f₁ → ∀ (f₂ : Nat), n < f₂ →
      decDigitsAux f₁ n = decDigitsAux f₂ n := by
  intro f₁
  induction f₁ with
  | zero => intro n h; omega
  | succ f ih =>
    intro n _ f₂ hf₂
    match f₂ with
    | 0 => omega
    | f₂ + 1 =>
      rw [decDigitsAux, decDigitsAux]
      by_cases h10 : n < 10
      · rw [if_pos h10, if_pos h10]
      · rw [if_neg h10, if_neg h10]
        have hdiv : n / 10 < n := Nat.div_lt_self (by omega) (by omega)
        rw [ih (by omega) f₂ (by omega)]

theorem decDigits_of_lt {n : Nat} (h : n < 10) :
    decDigits n = [Nat.digitChar n] := by
  rw [decDigits, decDigitsAux, if_pos h]

theorem decDigits_of_ge {n : Nat} (h : ¬ n < 10) :
    decDigits n = decDigits (n / 10) ++ [Nat.digitChar (n % 10)] := by
  rw [decDigits, decDigits, decDigitsAux, if_neg h]
  have hdiv : n / 10 < n := Nat.div_lt_self (by omega) (by omega)
  rw [decDigitsAux_fuel_irrel n (by omega) (n / 10 + 1) (by omega)]

theorem decDigits_ne_nil (n : Nat) : decDigits n ≠ [] := by
  by_cases h : n < 10
  · rw [decDigits_of_lt h]
    simp
  · rw [decDigits_of_ge h]
    simp

theorem digitChar_inj_lt : ∀ m < 10, ∀ n < 10, Nat.digitChar m = Nat.digitChar n → m = n := by
  decide

theorem decDigits_inj : ∀ m n : Nat, decDigits m = decDigits n → m = n := by
  intro m
  induction m using Nat.strong_induction_on with
  | _ m ih =>
    intro n h
    by_cases hm : m < 10
    · by_cases hn : n < 10
      · rw [decDigits_of_lt hm, decDigits_of_lt hn] at h
        exact digitChar_inj_lt m hm n hn (List.singleton_injective h)
      · rw [decDigits_of_lt hm, decDigits_of_ge hn] at h
        have hlen := congrArg List.length h
        have hnn : (decDigits (n / 10)).length ≠ 0 := by
          simpa [List.length_eq_zero] using decDigits_ne_nil (n / 10)
        simp only [List.length_append, List.length_singleton] at hlen
        omega
    · by_cases hn : n < 10
      · rw [decDigits_of_ge hm, decDigits_of_lt hn] at h
        have hlen := congrArg List.length h
        have hmm : (decDigits (m / 10)).length ≠ 0 := by
          simpa [List.length_eq_zero] using decDigits_ne_nil (m / 10)
        simp only [List.length_append, List.length_singleton] at hlen
        omega
      · rw [decDigits_of_ge hm, decDigits_of_ge hn] at h
        have h' := congrArg List.reverse h
        simp only [List.reverse_append, List.reverse_singleton, List.singleton_append,
          List.cons.injEq] at h'
        have hmod : m % 10 = n % 10 :=
          digitChar_inj_lt _ (Nat.mod_lt _ (by omega)) _ (Nat.mod_lt _ (by omega)) h'.1
        have hdiv : m / 10 = n / 10 :=
          ih (m / 10) (Nat.div_lt_self (by omega) (by omega))
            (n / 10) (List.reverse_injective h'.2)
        omega

theorem natToDecimal_inj {m n : Nat} (h : natToDecimal m = natToDecimal n) : m = n := by
  apply decDigits_inj
  have := congrArg String.data h
  simpa [natToDecimal] using this

theorem splitLines_ne_nil (s : List Char) : splitLines s ≠ [] := by
  match s with
  | [] => simp [splitLines]
  | c :: cs =>
    rw [splitLines]
    split
    · simp
    · split <;> simp

theorem not_mem_of_mem_splitLines {s : List Char} {l : List Char}
    (hl : l ∈ splitLines s) : '\n' ∉ l := by
  induction s generalizing l with
  | nil =>
    simp [splitLines] at hl
    simp [hl]
  | cons c cs ih =>
    rw [splitLines] at hl
    by_cases hc : c = '\n'
    · rw [if_pos hc] at hl
      rcases List.mem_cons.mp hl with h | h
      · simp [h]
      · exact ih h
    · rw [if_neg hc] at hl
      rcases hsp : splitLines cs with _ | ⟨l₀, ls⟩
      · exact absurd hsp (splitLines_ne_nil cs)
      · rw [hsp] at hl
        rcases List.mem_cons.mp hl with h | h
        · subst h
          intro hmem
          rcases List.mem_cons.mp hmem with h | h
          · exact hc h.symm
          · exact ih (by rw [hsp]; exact List.mem_cons_self _ _) h
        · exact ih (by rw [hsp]; exact List.mem_cons_of_mem _ h)

theorem splitLines_append_newline {l : List Char} (hl : '\n' ∉ l)
    (r : List Char) : splitLines (l ++ '\n' :: r) = l :: splitLines r := by
  induction l with
  | nil => simp [splitLines]
  | cons c cs ih =>
    have hc : c ≠ '\n' := by
      intro h
      exact hl (h ▸ List.mem_cons_self _ _)
    have hcs : '\n' ∉ cs := fun h => hl (List.mem_cons_of_mem _ h)
    rw [List.cons_append, splitLines, if_neg hc, ih hcs]

theorem splitLines_no_newline {l : List Char} (hl : '\n' ∉ l) :
    splitLines l = [l] := by
  induction l with
  | nil => simp [splitLines]
  | cons c cs ih =>
    have hc : c ≠ '\n' := by
      intro h
      exact hl (h ▸ List.mem_cons_self _ _)
    have hcs : '\n' ∉ cs := fun h => hl (List.mem_cons_of_mem _ h)
    rw [splitLines, if_neg hc, ih hcs]

theorem splitLines_joinLines : ∀ {ls : List (List Char)}, ls ≠ [] →
    (∀ l ∈ ls, '\n' ∉ l) → splitLines (joinLines ls) = ls := by
  intro ls
  induction ls with
  | nil => intro h; exact absurd rfl h
  | cons l ls ih =>
    intro _ hmem
    match ls with
    | [] =>
      rw [joinLines]
      exact splitLines_no_newline (hmem l (List.mem_cons_self _ _))
    | l' :: ls' =>
      have hih : splitLines (joinLines (l' :: ls')) = l' :: ls' :=
        ih (List.cons_ne_nil _ _) (fun x hx => hmem x (List.mem_cons_of_mem _ hx))
      rw [joinLines, splitLines_append_newline (hmem l (List.mem_cons_self _ _)), hih]
      exact List.cons_ne_nil _ _

theorem not_newline_cleanLine {l : List Char} (hl : '\n' ∉ l) :
    '\n' ∉ cleanLine l := by
  rw [cleanLine]
  split
  · exact hl
  · intro hmem
    exact hl (List.mem_of_mem_filter hmem)

theorem cleanLine_structural {l : List Char} (h : isStructural l = true) :
    cleanLine l = l := by
  rw [cleanLine, if_pos h]

theorem cleanLine_text {l : List Char} (h : isStructural l = false) :
    cleanLine l = l.filter (fun c => c ≠ '"') := by
  rw [cleanLine, if_neg (by simp [h])]

theorem cleanLine_idem (l : List Char) : cleanLine (cleanLine l) = cleanLine l := by
  by_cases h : isStructural l = true
  · rw [cleanLine_structural h]
    exact cleanLine_structural h
  · have h' := cleanLine_text (Bool.eq_false_iff.mpr h)
    rw [h']
    by_cases h2 : isStructural (l.filter (fun c => c ≠ '"')) = true
    · exact cleanLine_structural h2
    · rw [cleanLine_text (Bool.eq_false_iff.mpr h2)]
      apply List.filter_eq_self.mpr
      intro a ha
      exact (List.mem_filter.mp ha).2

theorem splitLines_cleanContent (s : List Char) :
    splitLines (cleanContent s) = (splitLines s).map cleanLine := by
  rw [cleanContent]
  apply splitLines_joinLines
  · intro h
    exact splitLines_ne_nil s (List.map_eq_nil_iff.mp h)
  · intro l hl
    rcases List.mem_map.mp hl with ⟨l₀, hl₀, rfl⟩
    exact not_newline_cleanLine (not_mem_of_mem_splitLines hl₀)

theorem promiseAll_error_of_mem {α : Type} {l : List (Except String α)}
    {e : String} (h : Except.error e ∈ l) :
    ∃ e', promiseAll l = Except.error e' := by
  induction l with
  | nil => simp at h
  | cons x xs ih =>
    rcases x with e₀ | a
    · exact ⟨e₀, rfl⟩
    · rcases List.mem_cons.mp h with h | h
      · exact absurd h (by simp)
      · rcases ih h with ⟨e', he'⟩
        refine ⟨e', ?_⟩
        rw [promiseAll, he']

theorem promiseAll_ok {α : Type} {l : List (Except String α)} {out : List α}
    (h : promiseAll l = Except.ok out) : l = out.map Except.ok := by
  induction l generalizing out with
  | nil =>
    rw [promiseAll] at h
    cases h
    rfl
  | cons x xs ih =>
    rcases x with e₀ | a
    · exact absurd h (by rw [promiseAll]; simp)
    · rw [promiseAll] at h
      rcases hxs : promiseAll xs with e' | as
      · rw [hxs] at h
        simp at h
      · rw [hxs] at h
        simp at h
        rw [← h, List.map_cons, ih hxs]

theorem mapIdxFrom_length {α β : Type} (f : Nat → α → β) (n : Nat)
    (l : List α) : (mapIdxFrom f n l).length = l.length := by
  induction l generalizing n with
  | nil => rfl
  | cons a as ih => simp [mapIdxFrom, ih]

theorem mapIdxFrom_get {α β : Type} (f : Nat → α → β) :
    ∀ (n : Nat) (l : List α) (i : Nat) (h : i < l.length)
      (h' : i < (mapIdxFrom f n l).length),
      (mapIdxFrom f n l).get ⟨i, h'⟩ = f (n + i) (l.get ⟨i, h⟩) := by
  intro n l
  induction l generalizing n with
  | nil => intro i h _; exact absurd h (by simp)
  | cons a as ih =>
    intro i h h'
    match i with
    | 0 => simp [mapIdxFrom]
    | i + 1 =>
      have hi : i < as.length := by simpa using h
      have hi' : i < (mapIdxFrom f (n + 1) as).length := by
        rw [mapIdxFrom_length]; exact hi
      have := ih (n + 1) i hi hi'
      simp only [mapIdxFrom, List.get_cons_succ]
      rw [this]
      congr 1
      omega

theorem data_natToDecimal (n : Nat) : (natToDecimal n).data = decDigits n :=
  rfl

theorem mapIdxFrom_getElem {α β : Type} (f : Nat → α → β) (n : Nat) (l : List α)
    (i : Nat) (h : i < l.length) (h' : i < (mapIdxFrom f n l).length) :
    (mapIdxFrom f n l)[i] = f (n + i) l[i] := by
  have := mapIdxFrom_get f n l i h h'
  simpa [List.get_eq_getElem] using this

theorem promiseAll_mapIdxFrom_ok {α : Type}
    {streams : List StreamDesc} {outcome : Nat → StreamDesc → Except String Unit}
    {track : Nat → StreamDesc → α} {out : List α}
    (h : promiseAll (mapIdxFrom
      (fun i s => (outcome i s).map (fun _ => track i s)) 0 streams) = Except.ok out) :
    out.length = streams.length ∧
    ∀ (i : Nat), ∀ _hi : i < streams.length, ∀ _hi' : i < out.length,
      out[i] = track i streams[i] := by
  have hmap := promiseAll_ok h
  have hlen : out.length = streams.length := by
    have hl := congrArg List.length hmap
    rw [mapIdxFrom_length, List.length_map] at hl
    omega
  refine ⟨hlen, ?_⟩
  intro i hi hi'
  have hml : i < (mapIdxFrom
      (fun i s => (outcome i s).map (fun _ => track i s)) 0 streams).length := by
    rw [mapIdxFrom_length]; exact hi
  have h1 : (mapIdxFrom
      (fun i s => (outcome i s).map (fun _ => track i s)) 0 streams)[i] =
      (outcome i streams[i]).map (fun _ => track i streams[i]) := by
    have := mapIdxFrom_getElem
      (fun i s => (outcome i s).map (fun _ => track i s)) 0 streams i hi hml
    simpa using this
  have h2 : (mapIdxFrom
      (fun i s => (outcome i s).map (fun _ => track i s)) 0 streams)[i] =
      Except.ok out[i] := by
    simp only [hmap, List.getElem_map]
  rw [h1] at h2
  rcases houtc : outcome i streams[i] with e | u
  · rw [houtc] at h2
    simp [Except.map] at h2
  · rw [houtc] at h2
    simpa [Except.map] using h2.symm

/-!
Claim C3.
-/

/-- C3: for every input file with N lines, the normalizer's output has
exactly N lines in the same relative order; every line the cleanup
classifies structural is identical before and after, and every other line is
exactly the input line with its double-quote characters removed. -/
theorem c3_normalizer_structure (s : List Char) :
    (splitLines (cleanContent s)).length = (splitLines s).length ∧
    ∀ (i : Nat), ∀ _h : i < (splitLines s).length,
      ∀ _h' : i < (splitLines (cleanContent s)).length,
      (isStructural (splitLines s)[i] = true →
        (splitLines (cleanContent s))[i] = (splitLines s)[i]) ∧
      (isStructural (splitLines s)[i] = false →
        (splitLines (cleanContent s))[i] =
          ((splitLines s)[i]).filter (fun c => c ≠ '"')) := by
  have hs := splitLines_cleanContent s
  constructor
  · rw [hs, List.length_map]
  · intro i h h'
    simp only [hs, List.getElem_map]
    constructor
    · intro hst
      exact cleanLine_structural hst
    · intro hst
      exact cleanLine_text hst

/-- Witness for C3 at a concrete subtitle file. -/
theorem c3_normalizer_structure_witness :
    (0 : Nat) < (splitLines ("1\nHe said \"hello\"").data).length ∧
    (0 : Nat) < (splitLines (cleanContent ("1\nHe said \"hello\"").data)).length ∧
    isStructural (splitLines ("1\nHe said \"hello\"").data)[0] = true ∧
    (splitLines (cleanContent ("1\nHe said \"hello\"").data))[0] =
      (splitLines ("1\nHe said \"hello\"").data)[0] := by
  refine ⟨by decide, by decide, by decide, ?_⟩
  exact (((c3_normalizer_structure ("1\nHe said \"hello\"").data).2 0
    (by decide) (by decide)).1 (by decide))

/-!
Claim C7.
-/

/-- C7: the Subtitle Normalizer is idempotent — applying the cleanup twice
yields the same file contents as applying it once. -/
theorem c7_normalizer_idempotent (s : List Char) :
    cleanContent (cleanContent s) = cleanContent s := by
  conv_lhs => rw [cleanContent, splitLines_cleanContent s, List.map_map]
  rw [cleanContent]
  congr 1
  apply List.map_congr_left
  intro l _
  simp only [Function.comp_apply]
  exact cleanLine_idem l

/-- Witness for C7 at a concrete subtitle file. -/
theorem c7_normalizer_idempotent_witness :
    cleanContent (cleanContent ("WEBVTT\nsaid \"hi\"\n\"9\"").data) =
      cleanContent ("WEBVTT\nsaid \"hi\"\n\"9\"").data :=
  c7_normalizer_idempotent ("WEBVTT\nsaid \"hi\"\n\"9\"").data

/-!
Claim C8.
-/

/-- C8: a request whose stream kind is neither audio nor subtitle is
rejected with the unsupported-stream error before any command is built, and
the handler spawns no subprocess at all. -/
theorem c8_unsupported_no_spawn (tempDir filePath : String) (stream : StreamDesc)
    (now : Nat) (execError : Option String) (fileContent : List Char) (ioOk : Bool)
    (h1 : stream.codec_type ≠ "audio") (h2 : stream.codec_type ≠ "subtitle") :
    extractStreamHandler tempDir filePath stream now execError fileContent ioOk =
      { spawned := [],
        result := Except.error "Unsupported stream type for extraction.",
        finalContent := none } := by
  rw [extractStreamHandler, if_neg h1, if_neg h2]

/-- Witness for C8: a video-kind stream is rejected and spawns nothing. -/
theorem c8_unsupported_no_spawn_witness :
    extractStreamHandler "/tmp" "movie.mkv"
      { index := 0, codec_type := "video", codec_name := "h264", tags := none }
      5 none [] true =
      { spawned := [],
        result := Except.error "Unsupported stream type for extraction.",
        finalContent := none } :=
  c8_unsupported_no_spawn "/tmp" "movie.mkv"
    { index := 0, codec_type := "video", codec_name := "h264", tags := none }
    5 none [] true (by decide) (by decide)

/-!
Claim C10.
-/

/-- C10: label selection tests truthiness, not presence — a present but
empty title tag falls through to the language tag (or further to the
positional fallback), and a present but empty language tag falls through to
the positional fallback, in both the audio and the subtitle labeling. -/
theorem c10_label_truthiness :
    (∀ (s : StreamDesc) (i : Nat), titleTag s = some "" →
      audioTrackLabel s i = orDefault (langTag s) ("Audio " ++ natToDecimal (i + 1)) ∧
      subtitleTrackLabel s i =
        orDefault (langTag s) ("Subtitle " ++ natToDecimal (i + 1))) ∧
    (∀ (s : StreamDesc) (i : Nat), titleTag s = some "" → langTag s = some "" →
      audioTrackLabel s i = "Audio " ++ natToDecimal (i + 1) ∧
      subtitleTrackLabel s i = "Subtitle " ++ natToDecimal (i + 1)) := by
  constructor
  · intro s i ht
    constructor
    · rw [audioTrackLabel, ht]
      simp [orDefault]
    · rw [subtitleTrackLabel, ht]
      simp [orDefault]
  · intro s i ht hl
    constructor
    · rw [audioTrackLabel, ht, hl]
      simp [orDefault]
    · rw [subtitleTrackLabel, ht, hl]
      simp [orDefault]

/-- Witness for C10: empty title with `language = "eng"` labels the track
with the language. -/
theorem c10_label_truthiness_witness :
    titleTag
        { index := 2, codec_type := "audio", codec_name := "mp3",
          tags := some { title := some "", language := some "eng" } } = some "" ∧
    audioTrackLabel
        { index := 2, codec_type := "audio", codec_name := "mp3",
          tags := some { title := some "", language := some "eng" } } 1 =
      orDefault
        (langTag
          { index := 2, codec_type := "audio", codec_name := "mp3",
            tags := some { title := some "", language := some "eng" } })
        ("Audio " ++ natToDecimal 2) :=
  ⟨by decide,
   (c10_label_truthiness.1
      { index := 2, codec_type := "audio", codec_name := "mp3",
        tags := some { title := some "", language := some "eng" } } 1 (by decide)).1⟩

/-!
Claim C5.
-/

/-- C5 counterexample: the batch pipeline does not pass extracted subtitle
artifacts through the normalizer — on a cue-text line containing a double
quote, serving the raw artifact differs from the normalized artifact. -/
theorem c5_counterexample :
    batchSubtitlePostProcess ("He said \"hi\"").data ≠
      cleanContent ("He said \"hi\"").data := by
  decide

/-- C5 as amended: only the interactive handler normalizes — a successful
interactive subtitle extraction rewrites the artifact to its cleaned
contents, while the batch pipeline returns the raw artifact unchanged. -/
theorem c5_amended_normalization_interactive_only :
    (∀ (tempDir filePath : String) (stream : StreamDesc) (now : Nat)
      (fileContent : List Char), stream.codec_type = "subtitle" →
      (extractStreamHandler tempDir filePath stream now none fileContent
        true).finalContent = some (cleanContent fileContent)) ∧
    (∀ raw : List Char, batchSubtitlePostProcess raw = raw) := by
  constructor
  · intro tempDir filePath stream now fileContent hsub
    have hna : ¬ stream.codec_type = "audio" := by
      rw [hsub]
      decide
    rw [extractStreamHandler, if_neg hna, if_pos hsub]
    rfl
  · intro raw
    rfl

/-- Witness for C5's amended statement at a concrete subtitle stream. -/
theorem c5_amended_witness :
    (extractStreamHandler "/tmp" "movie.mkv"
      { index := 2, codec_type := "subtitle", codec_name := "subrip", tags := none }
      5 none ("He said \"hi\"").data true).finalContent =
      some (cleanContent ("He said \"hi\"").data) :=
  c5_amended_normalization_interactive_only.1 "/tmp" "movie.mkv"
    { index := 2, codec_type := "subtitle", codec_name := "subrip", tags := none }
    5 ("He said \"hi\"").data (by decide)

/-!
Claim C6.
-/

/-- C6 counterexample: the batch video step appends the `-c:v libx264`
re-encode option automatically whenever the probed video codec is `h264`;
no caller-visible flag is involved (the option is a function of the probed
stream alone, and is absent for any other codec). -/
theorem c6_counterexample :
    "-c:v libx264" ∈ (buildBatchVideoCommand "processed/base"
      (some { index := 0, codec_type := "video", codec_name := "h264",
              tags := none })).outputOptions ∧
    (buildBatchVideoCommand "processed/base"
      (some { index := 0, codec_type := "video", codec_name := "hevc",
              tags := none })).outputOptions = [] := by
  decide

/-- C6 as amended: the batch video command always sets the video codec to
`copy`, and the only output option ever added is `-c:v libx264`, which is
appended automatically exactly when a video stream was found whose codec
name is `h264` — there is no caller-visible re-encode flag. -/
theorem c6_amended_video_copy_auto_reencode (processedDir : String)
    (videoStream : Option StreamDesc) :
    (buildBatchVideoCommand processedDir videoStream).videoCodec = some "copy" ∧
    ((buildBatchVideoCommand processedDir videoStream).outputOptions = [] ∨
      (buildBatchVideoCommand processedDir videoStream).outputOptions =
        ["-c:v libx264"]) ∧
    ((buildBatchVideoCommand processedDir videoStream).outputOptions =
        ["-c:v libx264"] ↔
      ∃ vs, videoStream = some vs ∧ vs.codec_name = "h264") := by
  rcases videoStream with _ | vs
  · refine ⟨rfl, Or.inl rfl, ?_⟩
    simp [buildBatchVideoCommand]
  · by_cases h : vs.codec_name = "h264"
    · refine ⟨by simp [buildBatchVideoCommand, h], ?_, ?_⟩
      · right
        simp [buildBatchVideoCommand, h]
      · simp [buildBatchVideoCommand, h]
    · refine ⟨by simp [buildBatchVideoCommand, h], ?_, ?_⟩
      · left
        simp [buildBatchVideoCommand, h]
      · simp [buildBatchVideoCommand, h]

/-- Witness for C6's amended statement at a concrete h264 stream. -/
theorem c6_amended_witness :
    (buildBatchVideoCommand "processed/base"
      (some { index := 0, codec_type := "video", codec_name := "h264",
              tags := none })).videoCodec = some "copy" :=
  (c6_amended_video_copy_auto_reencode "processed/base"
    (some { index := 0, codec_type := "video", codec_name := "h264",
            tags := none })).1

/-!
Claim C1.
-/

/-- C1 counterexample: in the batch instantiation the audio command always
requests a transcode to AAC — even for a stream whose codec name is already
`aac` it does not request a stream copy. -/
theorem c1_counterexample :
    (buildBatchAudioCommand "processed/base" 0
      { index := 1, codec_type := "audio", codec_name := "aac",
        tags := none }).audioCodec = some "aac" ∧
    (buildBatchAudioCommand "processed/base" 0
      { index := 1, codec_type := "audio", codec_name := "aac",
        tags := none }).audioCodec ≠ some "copy" := by
  decide

/-- C1 as amended: the interactive instantiation requests a stream copy
exactly when the stream's codec name is `aac` and a transcode to AAC for any
other codec name, while the batch instantiation always requests a transcode
to AAC regardless of the codec name. -/
theorem c1_amended_audio_copy_vs_transcode (filePath outputPath processedDir : String)
    (index i : Nat) (codecName : String) (stream : StreamDesc) :
    (codecName = "aac" →
      List.IsInfix (" -c:a copy \"").data
        (interactiveAudioCommand filePath index codecName outputPath).data) ∧
    (codecName ≠ "aac" →
      List.IsInfix (" -c:a aac \"").data
        (interactiveAudioCommand filePath index codecName outputPath).data) ∧
    (buildBatchAudioCommand processedDir i stream).audioCodec = some "aac" := by
  refine ⟨?_, ?_, rfl⟩
  · intro h
    rw [interactiveAudioCommand, if_pos h]
    refine ⟨("ffmpeg -y -i \"" ++ filePath ++ "\" -map 0:" ++ natToDecimal index).data,
      (outputPath ++ "\"").data, ?_⟩
    simp [String.data_append, List.append_assoc]
  · intro h
    rw [interactiveAudioCommand, if_neg h]
    refine ⟨("ffmpeg -y -i \"" ++ filePath ++ "\" -map 0:" ++ natToDecimal index).data,
      (outputPath ++ "\"").data, ?_⟩
    simp [String.data_append, List.append_assoc]

/-- Witness for C1's amended statement: an `aac` stream gets a copy command,
an `mp3` stream gets a transcode command, and a concrete batch command
transcodes. -/
theorem c1_amended_witness :
    List.IsInfix (" -c:a copy \"").data
      (interactiveAudioCommand "in.mkv" 2 "aac" "/tmp/out.aac").data ∧
    List.IsInfix (" -c:a aac \"").data
      (interactiveAudioCommand "in.mkv" 2 "mp3" "/tmp/out.aac").data ∧
    (buildBatchAudioCommand "processed/base" 0
      { index := 1, codec_type := "audio", codec_name := "mp3",
        tags := none }).audioCodec = some "aac" :=
  ⟨(c1_amended_audio_copy_vs_transcode "in.mkv" "/tmp/out.aac" "processed/base" 2 0
      "aac" { index := 1, codec_type := "audio", codec_name := "mp3",
              tags := none }).1 rfl,
   (c1_amended_audio_copy_vs_transcode "in.mkv" "/tmp/out.aac" "processed/base" 2 0
      "mp3" { index := 1, codec_type := "audio", codec_name := "mp3",
              tags := none }).2.1 (by decide),
   (c1_amended_audio_copy_vs_transcode "in.mkv" "/tmp/out.aac" "processed/base" 2 0
      "mp3" { index := 1, codec_type := "audio", codec_name := "mp3",
              tags := none }).2.2⟩

/-!
Claim C4.
-/

/-- C4 counterexample: path allocation of either kind depends only on the
observed `Date.now()` value, so two distinct concurrent sessions that
observe the same millisecond timestamp are handed the same output path for
the same (kind, streamIndex) — shown for the audio kind and for the subtitle
kind. -/
theorem c4_counterexample :
    (⟨0, 5⟩ : ExtractionSession) ≠ (⟨1, 5⟩ : ExtractionSession) ∧
    sessionAudioOutputPath "/tmp" ⟨0, 5⟩ 3 = sessionAudioOutputPath "/tmp" ⟨1, 5⟩ 3 ∧
    sessionSubtitleOutputPath "/tmp" ⟨0, 5⟩ 3 =
      sessionSubtitleOutputPath "/tmp" ⟨1, 5⟩ 3 := by
  decide

/-- C4 as amended: for either stream kind, two allocations for the same
stream index are distinct whenever the two sessions observed distinct
`Date.now()` values (the code offers no uniqueness beyond the millisecond
timestamp embedded in the name). -/
theorem c4_amended_distinct_timestamps_distinct_paths (tempDir : String)
    (s₁ s₂ : ExtractionSession) (index : Nat) (h : s₁.now ≠ s₂.now) :
    sessionAudioOutputPath tempDir s₁ index ≠ sessionAudioOutputPath tempDir s₂ index ∧
    sessionSubtitleOutputPath tempDir s₁ index ≠
      sessionSubtitleOutputPath tempDir s₂ index := by
  constructor
  · intro heq
    apply h
    have hd := congrArg String.data heq
    simp only [sessionAudioOutputPath, audioOutputPath, uniqueId, String.data_append,
      data_natToDecimal, List.append_assoc] at hd
    have h1 := List.append_cancel_left hd
    have h2 := List.append_cancel_left h1
    have h3 := List.append_cancel_left h2
    exact decDigits_inj _ _ (List.append_cancel_right h3)
  · intro heq
    apply h
    have hd := congrArg String.data heq
    simp only [sessionSubtitleOutputPath, subtitleOutputPath, uniqueId, String.data_append,
      data_natToDecimal, List.append_assoc] at hd
    have h1 := List.append_cancel_left hd
    have h2 := List.append_cancel_left h1
    have h3 := List.append_cancel_left h2
    exact decDigits_inj _ _ (List.append_cancel_right h3)

/-- Witness for C4's amended statement at two concrete sessions, covering
both the audio and the subtitle allocation. -/
theorem c4_amended_witness :
    (⟨0, 5⟩ : ExtractionSession).now ≠ (⟨1, 7⟩ : ExtractionSession).now ∧
    sessionAudioOutputPath "/tmp" ⟨0, 5⟩ 3 ≠ sessionAudioOutputPath "/tmp" ⟨1, 7⟩ 3 ∧
    sessionSubtitleOutputPath "/tmp" ⟨0, 5⟩ 3 ≠
      sessionSubtitleOutputPath "/tmp" ⟨1, 7⟩ 3 :=
  ⟨by decide,
   (c4_amended_distinct_timestamps_distinct_paths "/tmp" ⟨0, 5⟩ ⟨1, 7⟩ 3 (by decide)).1,
   (c4_amended_distinct_timestamps_distinct_paths "/tmp" ⟨0, 5⟩ ⟨1, 7⟩ 3 (by decide)).2⟩

/-!
Claim C2.
-/

/-- C2: in batch mode, the failure of any single stream's extraction (video,
audio, or subtitle) fails the entire call — the handler answers with an
error and produces no manifest. -/
theorem c2_batch_failure_no_manifest (filename baseName : String)
    (streams : List StreamDesc) (videoOutcome : Except String Unit)
    (audioOutcome subtitleOutcome : Nat → StreamDesc → Except String Unit)
    (e : String)
    (hfail :
      videoOutcome = Except.error e ∨
      (∃ i, ∃ _h : i < (streams.filter (fun s => s.codec_type == "audio")).length,
        audioOutcome i (streams.filter (fun s => s.codec_type == "audio"))[i] =
          Except.error e) ∨
      (∃ i, ∃ _h : i < (streams.filter (fun s => s.codec_type == "subtitle")).length,
        subtitleOutcome i (streams.filter (fun s => s.codec_type == "subtitle"))[i] =
          Except.error e)) :
    ∃ e', uploadHandler filename baseName streams videoOutcome audioOutcome
      subtitleOutcome = Except.error e' := by
  by_cases hempty : streams.isEmpty
  · exact ⟨"No streams found in the video file", by rw [uploadHandler, if_pos hempty]⟩
  · rcases videoOutcome with ev | u
    · exact ⟨ev, by rw [uploadHandler, if_neg hempty]⟩
    · rcases hpa : promiseAll (mapIdxFrom
          (fun i s => (audioOutcome i s).map (fun _ => audioTrack baseName i s))
          0 (streams.filter (fun s => s.codec_type == "audio"))) with ea | outa
      · exact ⟨ea, by rw [uploadHandler, if_neg hempty]; simp only [hpa]⟩
      · rcases hfail with hfv | hfa | hfs
        · exact absurd hfv (by simp)
        · rcases hfa with ⟨i, hi, herr⟩
          have hml : i < (mapIdxFrom
              (fun i s => (audioOutcome i s).map (fun _ => audioTrack baseName i s))
              0 (streams.filter (fun s => s.codec_type == "audio"))).length := by
            rw [mapIdxFrom_length]
            exact hi
          have hg := mapIdxFrom_getElem
            (fun i s => (audioOutcome i s).map (fun _ => audioTrack baseName i s))
            0 (streams.filter (fun s => s.codec_type == "audio")) i hi hml
          rw [Nat.zero_add, herr] at hg
          simp only [Except.map] at hg
          have hmem : Except.error e ∈ mapIdxFrom
              (fun i s => (audioOutcome i s).map (fun _ => audioTrack baseName i s))
              0 (streams.filter (fun s => s.codec_type == "audio")) :=
            hg ▸ List.getElem_mem hml
          rcases promiseAll_error_of_mem hmem with ⟨e', he'⟩
          rw [hpa] at he'
          exact absurd he' (by simp)
        · rcases hfs with ⟨i, hi, herr⟩
          have hml : i < (mapIdxFrom
              (fun i s => (subtitleOutcome i s).map (fun _ => subtitleTrack baseName i s))
              0 (streams.filter (fun s => s.codec_type == "subtitle"))).length := by
            rw [mapIdxFrom_length]
            exact hi
          have hg := mapIdxFrom_getElem
            (fun i s => (subtitleOutcome i s).map (fun _ => subtitleTrack baseName i s))
            0 (streams.filter (fun s => s.codec_type == "subtitle")) i hi hml
          rw [Nat.zero_add, herr] at hg
          simp only [Except.map] at hg
          have hmem : Except.error e ∈ mapIdxFrom
              (fun i s => (subtitleOutcome i s).map (fun _ => subtitleTrack baseName i s))
              0 (streams.filter (fun s => s.codec_type == "subtitle")) :=
            hg ▸ List.getElem_mem hml
          rcases promiseAll_error_of_mem hmem with ⟨e', he'⟩
          refine ⟨e', ?_⟩
          rw [uploadHandler, if_neg hempty]
          simp only [hpa, he']

/-- Witness for C2: a three-stream file whose second audio extraction fails
produces an error and no manifest. -/
theorem c2_batch_failure_no_manifest_witness :
    ∃ e', uploadHandler "f.mkv" "base"
      [{ index := 0, codec_type := "video", codec_name := "h264", tags := none },
       { index := 1, codec_type := "audio", codec_name := "aac", tags := none },
       { index := 2, codec_type := "audio", codec_name := "mp3", tags := none }]
      (Except.ok ())
      (fun i _ => if i = 1 then Except.error "boom" else Except.ok ())
      (fun _ _ => Except.ok ()) = Except.error e' :=
  c2_batch_failure_no_manifest "f.mkv" "base"
    [{ index := 0, codec_type := "video", codec_name := "h264", tags := none },
     { index := 1, codec_type := "audio", codec_name := "aac", tags := none },
     { index := 2, codec_type := "audio", codec_name := "mp3", tags := none }]
    (Except.ok ())
    (fun i _ => if i = 1 then Except.error "boom" else Except.ok ())
    (fun _ _ => Except.ok ()) "boom"
    (Or.inr (Or.inl ⟨1, by decide, by decide⟩))

/-!
Claim C9.
-/

/-- C9 counterexample: a stream whose title tag is present but empty is not
labeled with its title — the label falls through to the language tag, so the
manifest label is not "the stream's title tag if present". -/
theorem c9_counterexample :
    titleTag
        { index := 2, codec_type := "audio", codec_name := "mp3",
          tags := some { title := some "", language := some "spa" } } = some "" ∧
    audioTrackLabel
        { index := 2, codec_type := "audio", codec_name := "mp3",
          tags := some { title := some "", language := some "spa" } } 1 = "spa" := by
  decide

/-- C9 as amended: on a successful batch call, the manifest's audio and
subtitle entries correspond positionally to the kind partitions of the
probed inventory (so positional fallback numbering is by position within the
partition, not by global stream index), and the label is the title tag if
present and non-empty, else the language tag if present and non-empty, else
the 1-indexed positional fallback. -/
theorem c9_amended_batch_labels (filename baseName : String)
    (streams : List StreamDesc) (videoOutcome : Except String Unit)
    (audioOutcome subtitleOutcome : Nat → StreamDesc → Except String Unit)
    (r : UploadResponse)
    (hr : uploadHandler filename baseName streams videoOutcome audioOutcome
      subtitleOutcome = Except.ok r) :
    (r.audioTracks.length =
        (streams.filter (fun s => s.codec_type == "audio")).length ∧
      ∀ i, ∀ _hi : i < (streams.filter (fun s => s.codec_type == "audio")).length,
        ∀ _hi' : i < r.audioTracks.length,
        r.audioTracks[i] =
          audioTrack baseName i (streams.filter (fun s => s.codec_type == "audio"))[i]) ∧
    (r.subtitleTracks.length =
        (streams.filter (fun s => s.codec_type == "subtitle")).length ∧
      ∀ i, ∀ _hi : i < (streams.filter (fun s => s.codec_type == "subtitle")).length,
        ∀ _hi' : i < r.subtitleTracks.length,
        r.subtitleTracks[i] =
          subtitleTrack baseName i
            (streams.filter (fun s => s.codec_type == "subtitle"))[i]) ∧
    (∀ (s : StreamDesc) (i : Nat) (t : String), titleTag s = some t → t ≠ "" →
      audioTrackLabel s i = t ∧ subtitleTrackLabel s i = t) ∧
    (∀ (s : StreamDesc) (i : Nat) (l : String),
      (titleTag s = none ∨ titleTag s = some "") → langTag s = some l → l ≠ "" →
      audioTrackLabel s i = l ∧ subtitleTrackLabel s i = l) ∧
    (∀ (s : StreamDesc) (i : Nat),
      (titleTag s = none ∨ titleTag s = some "") →
      (langTag s = none ∨ langTag s = some "") →
      audioTrackLabel s i = "Audio " ++ natToDecimal (i + 1) ∧
      subtitleTrackLabel s i = "Subtitle " ++ natToDecimal (i + 1)) := by
  have hstruct : (r.audioTracks.length =
        (streams.filter (fun s => s.codec_type == "audio")).length ∧
      ∀ i, ∀ _hi : i < (streams.filter (fun s => s.codec_type == "audio")).length,
        ∀ _hi' : i < r.audioTracks.length,
        r.audioTracks[i] =
          audioTrack baseName i (streams.filter (fun s => s.codec_type == "audio"))[i]) ∧
      (r.subtitleTracks.length =
        (streams.filter (fun s => s.codec_type == "subtitle")).length ∧
      ∀ i, ∀ _hi : i < (streams.filter (fun s => s.codec_type == "subtitle")).length,
        ∀ _hi' : i < r.subtitleTracks.length,
        r.subtitleTracks[i] =
          subtitleTrack baseName i
            (streams.filter (fun s => s.codec_type == "subtitle"))[i]) := by
    by_cases hempty : streams.isEmpty
    · rw [uploadHandler, if_pos hempty] at hr
      exact absurd hr (by simp)
    · rw [uploadHandler, if_neg hempty] at hr
      rcases videoOutcome with ev | u
      · simp at hr
      · rcases hpa : promiseAll (mapIdxFrom
            (fun i s => (audioOutcome i s).map (fun _ => audioTrack baseName i s))
            0 (streams.filter (fun s => s.codec_type == "audio"))) with ea | outa
        · simp only [hpa] at hr
          simp at hr
        · simp only [hpa] at hr
          rcases hps : promiseAll (mapIdxFrom
              (fun i s => (subtitleOutcome i s).map (fun _ => subtitleTrack baseName i s))
              0 (streams.filter (fun s => s.codec_type == "subtitle"))) with es | outs
          · simp only [hps] at hr
            simp at hr
          · simp only [hps] at hr
            simp only [Except.ok.injEq] at hr
            subst hr
            have ha := promiseAll_mapIdxFrom_ok hpa
            have hs := promiseAll_mapIdxFrom_ok hps
            exact ⟨⟨ha.1, fun i hi hi' => ha.2 i hi hi'⟩,
              ⟨hs.1, fun i hi hi' => hs.2 i hi hi'⟩⟩
  refine ⟨hstruct.1, hstruct.2, ?_, ?_, ?_⟩
  · intro s i t ht htne
    constructor
    · rw [audioTrackLabel, ht, orDefault, if_neg htne]
    · rw [subtitleTrackLabel, ht, orDefault, if_neg htne]
  · intro s i l htn hl hlne
    rcases htn with htn | htn
    · constructor
      · rw [audioTrackLabel, htn, hl, orDefault, orDefault, if_neg hlne]
      · rw [subtitleTrackLabel, htn, hl, orDefault, orDefault, if_neg hlne]
    · constructor
      · rw [audioTrackLabel, htn, hl]
        simp [orDefault, hlne]
      · rw [subtitleTrackLabel, htn, hl]
        simp [orDefault, hlne]
  · intro s i htn hln
    rcases htn with htn | htn <;> rcases hln with hln | hln <;>
      exact ⟨by rw [audioTrackLabel, htn, hln]; simp [orDefault],
        by rw [subtitleTrackLabel, htn, hln]; simp [orDefault]⟩

/-- Witness for C9's amended statement on the spec's batch-labeling
scenario: one video stream plus two audio streams, the first titled
`Commentary`, the second without tags, labels `Commentary` and `Audio 2`. -/
theorem c9_amended_witness :
    uploadHandler "f.mkv" "base"
      [{ index := 0, codec_type := "video", codec_name := "h264", tags := none },
       { index := 1, codec_type := "audio", codec_name := "aac",
         tags := some { title := some "Commentary", language := none } },
       { index := 2, codec_type := "audio", codec_name := "mp3", tags := none }]
      (Except.ok ()) (fun _ _ => Except.ok ()) (fun _ _ => Except.ok ()) =
      Except.ok
        { videoUrl := "/processed/base/video.mp4",
          audioTracks :=
            [{ url := "/processed/base/audio_0.aac", label := "Commentary" },
             { url := "/processed/base/audio_1.aac", label := "Audio 2" }],
          subtitleTracks := [], filename := "f.mkv" } ∧
    (UploadResponse.audioTracks
        { videoUrl := "/processed/base/video.mp4",
          audioTracks :=
            [{ url := "/processed/base/audio_0.aac", label := "Commentary" },
             { url := "/processed/base/audio_1.aac", label := "Audio 2" }],
          subtitleTracks := [], filename := "f.mkv" }).length =
      ([{ index := 0, codec_type := "video", codec_name := "h264", tags := none },
        { index := 1, codec_type := "audio", codec_name := "aac",
          tags := some { title := some "Commentary", language := none } },
        ({ index := 2, codec_type := "audio", codec_name := "mp3", tags := none }
          : StreamDesc)].filter (fun s => s.codec_type == "audio")).length ∧
    audioTrackLabel
      { index := 2, codec_type := "audio", codec_name := "mp3", tags := none } 1 =
      "Audio " ++ natToDecimal 2 :=
  ⟨by decide,
   (c9_amended_batch_labels "f.mkv" "base"
      [{ index := 0, codec_type := "video", codec_name := "h264", tags := none },
       { index := 1, codec_type := "audio", codec_name := "aac",
         tags := some { title := some "Commentary", language := none } },
       { index := 2, codec_type := "audio", codec_name := "mp3", tags := none }]
      (Except.ok ()) (fun _ _ => Except.ok ()) (fun _ _ => Except.ok ())
      { videoUrl := "/processed/base/video.mp4",
        audioTracks :=
          [{ url := "/processed/base/audio_0.aac", label := "Commentary" },
           { url := "/processed/base/audio_1.aac", label := "Audio 2" }],
        subtitleTracks := [], filename := "f.mkv" } (by decide)).1.1,
   ((c9_amended_batch_labels "f.mkv" "base"
      [{ index := 0, codec_type := "video", codec_name := "h264", tags := none },
       { index := 1, codec_type := "audio", codec_name := "aac",
         tags := some { title := some "Commentary", language := none } },
       { index := 2, codec_type := "audio", codec_name := "mp3", tags := none }]
      (Except.ok ()) (fun _ _ => Except.ok ()) (fun _ _ => Except.ok ())
      { videoUrl := "/processed/base/video.mp4",
        audioTracks :=
          [{ url := "/processed/base/audio_0.aac", label := "Commentary" },
           { url := "/processed/base/audio_1.aac", label := "Audio 2" }],
        subtitleTracks := [], filename := "f.mkv" } (by decide)).2.2.2.2
      { index := 2, codec_type := "audio", codec_name := "mp3", tags := none } 1
      (Or.inl (by decide)) (Or.inl (by decide))).1⟩
